import Mathlib

/-!
Verification development for the fancy_booksite repository (src/app.py).

The file shallowly embeds the data-management core of the Flask app:
the SQLite-backed book catalog (tables books / authors / book_author),
the MongoDB-backed review collection, and the five HTTP handlers
list_books, add_book, get_reviews, add_review, delete_review.

Python JSON values are modelled by `JValue` (null / bool / int / string;
the claims under study never need float bodies).  Machine behaviour that
the handlers rely on is translated explicitly:
`pyStrip` models str.strip(), `pyParseInt` models int() applied to a
string (ASCII digits, optional sign, single underscores between digits,
surrounding whitespace), `pyInt` models int() applied to a JSON value
(TypeError on null, bools coerce to 0/1), `pyStr` models str(),
`pyTruthy` models Python truthiness, and `likeAux` models the SQLite
LIKE operator (wildcards % and _, ASCII case folding) with explicit
fuel so that every definition stays structurally recursive and
kernel-evaluable.
-/

namespace BookSite

/-- A JSON value as Flask's request.get_json delivers it (floats are not
needed by any claim). -/
inductive JValue where
  | null
  | bool (b : Bool)
  | int (n : Int)
  | str (s : String)
deriving Repr, DecidableEq

/-- Python truthiness of a JSON value. -/
def pyTruthy : JValue → Bool
  | .null => false
  | .bool b => b
  | .int n => n != 0
  | .str s => s != ""

/-- Python str() of a JSON value: None prints as "None", booleans as
"True"/"False", integers in decimal. -/
def pyStr : JValue → String
  | .null => "None"
  | .bool true => "True"
  | .bool false => "False"
  | .int n => toString n
  | .str s => s

/-- Python str.strip(): drop whitespace from both ends. -/
def pyStrip (s : String) : String :=
  ⟨((s.data.dropWhile Char.isWhitespace).reverse.dropWhile Char.isWhitespace).reverse⟩

/-- Digit run as accepted by Python int(): nonempty ASCII digits with
single underscores allowed strictly between digits. -/
def pyDigitsCore : List Char → Bool
  | [] => false
  | [c] => c.isDigit
  | c :: d :: rest =>
    c.isDigit && (if d = '_' then pyDigitsCore rest else pyDigitsCore (d :: rest))

/-- Numeric value of a digit run (underscores skipped). -/
def digitsVal (l : List Char) : Nat :=
  (l.filter (fun c => c != '_')).foldl (fun a c => 10 * a + (c.toNat - 48)) 0

/-- Python int() on a string: optional surrounding whitespace, optional
sign, then a digit run; none models the raised ValueError. -/
def pyParseInt (s : String) : Option Int :=
  match (pyStrip s).data with
  | '+' :: rest => if pyDigitsCore rest then some (digitsVal rest) else none
  | '-' :: rest => if pyDigitsCore rest then some (-(digitsVal rest : Int)) else none
  | t => if pyDigitsCore t then some ((digitsVal t : Int)) else none

/-- Python int() on a JSON value; none models the raised exception. -/
def pyInt : JValue → Option Int
  | .null => none
  | .bool b => some (if b then 1 else 0)
  | .int n => some n
  | .str s => pyParseInt s

/-- int(data.get(field)): absent fields give None, and int(None) raises. -/
def pyIntOpt : Option JValue → Option Int
  | none => none
  | some v => pyInt v

/-- The expression (data.get(field) or "").strip() used by add_book.
A truthy non-string value has no .strip() attribute: that is the
uncaught AttributeError, modelled as .error. -/
def pyFieldStr : Option JValue → Except Unit String
  | none => .ok ""
  | some v =>
    if pyTruthy v then
      match v with
      | .str s => .ok (pyStrip s)
      | _ => .error ()
    else .ok ""

/-- ASCII lower casing of a string (Char.toLower only folds A-Z, exactly
like the SQLite NOCASE collation and LIKE operator). -/
def asciiLower (s : String) : String :=
  ⟨s.data.map Char.toLower⟩

/-- Fueled SQLite LIKE matcher over already-case-folded character lists.
Wildcard % matches any run, _ matches one character. -/
def likeAux : Nat → List Char → List Char → Bool
  | 0, _, _ => false
  | _ + 1, [], s => s.isEmpty
  | fuel + 1, p :: ps, s =>
    if p = '%' then
      likeAux fuel ps s ||
        (match s with
         | [] => false
         | _ :: s' => likeAux fuel (p :: ps) s')
    else
      match s with
      | [] => false
      | c :: s' => (p = '_' || p == c) && likeAux fuel ps s'

/-- SQLite expr LIKE pattern, with default ASCII case-insensitivity.
The fuel strictly dominates every recursive call of likeAux. -/
def sqliteLike (pat s : String) : Bool :=
  let p := pat.data.map Char.toLower
  let t := s.data.map Char.toLower
  likeAux (p.length + t.length + 1) p t

/-! ### Relational state (SQLite: books, authors, book_author) -/

/-- A row of the books table. -/
structure Book where
  book_id : Nat
  title : String
  publication_year : Option Int
  image_url : Option String
deriving Repr, DecidableEq

/-- A row of the authors table (name is UNIQUE). -/
structure Author where
  author_id : Nat
  name : String
deriving Repr, DecidableEq

/-- The SQLite database: table contents in insertion order plus the next
rowids the engine would assign. -/
structure Catalog where
  books : List Book
  authors : List Author
  links : List (Nat × Nat)
  nextBookId : Nat
  nextAuthorId : Nat
deriving Repr, DecidableEq

/-- The DEFAULT_COVER constant of app.py. -/
def DEFAULT_COVER : String :=
  "https://images.rawpixel.com/image_png_social_landscape/czNmcy1wcml2YXRlL3Jhd3BpeGVsX2ltYWdlcy93ZWJzaXRlX2NvbnRlbnQvbHIvam9iNjgzLTAwMzEucG5n.png"

/-- Resolve an author id to its name (authors.find on author_id). -/
def authorName (st : Catalog) (aid : Nat) : Option String :=
  (st.authors.find? (fun a => a.author_id == aid)).map (fun a => a.name)

/-- The author names linked to a book, in link insertion order (the
order GROUP_CONCAT sees them). -/
def authorsOfBook (st : Catalog) (bid : Nat) : List String :=
  (st.links.filter (fun l => l.1 == bid)).filterMap (fun l => authorName st l.2)

/-- GROUP_CONCAT(a.name, ", "): NULL for an empty group. -/
def joinAuthors : List String → Option String
  | [] => none
  | l => some (String.intercalate ", " l)

/-- A row of the joined book SELECT used by the handlers:
image_url is COALESCEd with DEFAULT_COVER, authors is the
GROUP_CONCAT display string. -/
structure BookRow where
  book_id : Nat
  title : String
  publication_year : Option Int
  image_url : String
  authors : Option String
deriving Repr, DecidableEq

/-- Package a book with a list of (surviving) author names as one
result row of the joined SELECT. -/
def mkRow (b : Book) (names : List String) : BookRow :=
  { book_id := b.book_id
    title := b.title
    publication_year := b.publication_year
    image_url := b.image_url.getD DEFAULT_COVER
    authors := joinAuthors names }

/-! ### Document state (MongoDB: reviews collection) -/

/-- Hex digit characters as produced by str(ObjectId). -/
def hexChar (n : Nat) : Char :=
  if n < 10 then Char.ofNat (48 + n) else Char.ofNat (87 + n)

/-- Fixed-width lowercase hex rendering. -/
def hexRep : Nat → Nat → List Char
  | 0, _ => []
  | w + 1, n => hexRep w (n / 16) ++ [hexChar (n % 16)]

/-- The 24-hex-character ObjectId that the store assigns to the k-th
inserted document (a deterministic stand-in for Mongo id generation;
only distinctness and shape matter). -/
def oidOfNat (n : Nat) : String :=
  ⟨hexRep 24 n⟩

/-- A stored review document. -/
structure ReviewDoc where
  oid : String
  book_id : Int
  reviewer : String
  rating : Int
  text : String
  created_at : Nat
deriving Repr, DecidableEq

/-- The reviews collection plus the id-generation state. -/
structure Reviews where
  docs : List ReviewDoc
  nextOid : Nat
deriving Repr, DecidableEq

/-- The two independent stores the app composes. -/
structure AppState where
  cat : Catalog
  rev : Reviews
deriving Repr, DecidableEq

/-! ### GET /api/books (list_books) -/

/-- One book group of the list query.  The WHERE clause of the SQL runs
before GROUP BY, so for a non-empty query whose pattern does not match
the title only the join rows whose author name matches survive into
GROUP_CONCAT; a book with no surviving row is dropped. -/
def bookGroup (st : Catalog) (q : String) (b : Book) : Option BookRow :=
  let names := authorsOfBook st b.book_id
  if q = "" then some (mkRow b names)
  else
    let pat := "%" ++ q ++ "%"
    if sqliteLike pat b.title then some (mkRow b names)
    else
      let surv := names.filter (fun n => sqliteLike pat n)
      if surv.isEmpty then none else some (mkRow b surv)

/-- SQL LIMIT semantics: absent means unbounded, a negative value also
means unbounded in SQLite. -/
def applyLimit (limit : Option Int) (rows : List BookRow) : List BookRow :=
  match limit with
  | none => rows
  | some n => if n < 0 then rows else rows.take n.toNat

/-- ORDER BY b.title COLLATE NOCASE ASC: lexicographic comparison of the
ASCII-folded characters (UTF-8 byte order agrees with codepoint order). -/
def rowLe (x y : BookRow) : Prop :=
  (asciiLower x.title).data ≤ (asciiLower y.title).data

instance : DecidableRel rowLe := fun x y =>
  inferInstanceAs (Decidable ((asciiLower x.title).data ≤ (asciiLower y.title).data))

instance : IsTotal BookRow rowLe :=
  ⟨fun x y => le_total (asciiLower x.title).data (asciiLower y.title).data⟩

instance : IsTrans BookRow rowLe :=
  ⟨fun _ _ _ h h' => le_trans h h'⟩

/-- The limit query parameter: missing/empty defaults to "100", then
stripped and lowered; "all" means unbounded, a non-integer string
silently falls back to 100. -/
def parseLimit (limitParam : Option String) : Option Int :=
  let raw0 := match limitParam with
    | none => "100"
    | some s => if s = "" then "100" else s
  let raw := asciiLower (pyStrip raw0)
  if raw = "all" then none
  else
    match pyParseInt raw with
    | some n => some n
    | none => some 100

/-- The GET /api/books handler: strip the query, run the joined SELECT
(filter before grouping), order by title NOCASE ascending, apply the
limit. -/
def list_books (app : AppState) (qParam limitParam : Option String) : List BookRow :=
  let q := pyStrip (qParam.getD "")
  let limit := parseLimit limitParam
  applyLimit limit
    (List.insertionSort rowLe (app.cat.books.filterMap (bookGroup app.cat q)))

/-! ### POST /api/books (add_book) -/

/-- The JSON body of POST /api/books; a missing key is none. -/
structure BookReq where
  title : Option JValue
  author : Option JValue
  publication_year : Option JValue
  image_url : Option JValue
deriving Repr, DecidableEq

/-- Outcome of add_book: a 400 JSON error, an uncaught Python exception
(500 after the logging wrapper re-raises), or a 200/201 success with
the joined book row. -/
inductive UpsertOut where
  | badReq (msg : String)
  | exn
  | ok (status : Nat) (book : BookRow)
deriving Repr, DecidableEq

/-- SELECT author_id FROM authors WHERE name = ? (exact match), first
row; only called after the INSERT OR IGNORE so the default is dead. -/
def findAuthorId (st : Catalog) (name : String) : Nat :=
  ((st.authors.find? (fun a => a.name == name)).map (fun a => a.author_id)).getD 0

/-- INSERT OR IGNORE INTO authors(name): append a fresh row unless the
exact name already exists. -/
def ensureAuthor (st : Catalog) (name : String) : Catalog :=
  if st.authors.any (fun a => a.name == name) then st
  else
    { st with
      authors := st.authors ++ [⟨st.nextAuthorId, name⟩]
      nextAuthorId := st.nextAuthorId + 1 }

/-- SELECT book_id FROM books WHERE title = ? COLLATE NOCASE, first row
(NOCASE folds ASCII letters only). -/
def findBookNocase (books : List Book) (title : String) : Option Book :=
  books.find? (fun b => asciiLower b.title == asciiLower title)

/-- SQL COALESCE of two nullable values. -/
def coalesce {α : Type} : Option α → Option α → Option α
  | some a, _ => some a
  | none, b => b

/-- UPDATE books SET publication_year = COALESCE(?, publication_year),
image_url = COALESCE(?, image_url) applied to one row. -/
def updateBookRow (b : Book) (y : Option Int) (img : Option String) : Book :=
  { b with
    publication_year := coalesce y b.publication_year
    image_url := coalesce img b.image_url }

/-- The UPDATE above applied across the table (WHERE book_id = ?). -/
def updateBooks (books : List Book) (bid : Nat) (y : Option Int) (img : Option String) :
    List Book :=
  books.map (fun b => if b.book_id = bid then updateBookRow b y img else b)

/-- INSERT OR IGNORE INTO book_author(book_id, author_id). -/
def ensureLink (st : Catalog) (bid aid : Nat) : Catalog :=
  if (bid, aid) ∈ st.links then st
  else { st with links := st.links ++ [(bid, aid)] }

/-- The single-book joined SELECT that add_book returns. -/
def bookRowById (st : Catalog) (bid : Nat) : Option BookRow :=
  (st.books.find? (fun b => b.book_id == bid)).map
    (fun b => mkRow b (authorsOfBook st bid))

/-- The POST /api/books handler.  The conflict flag models the sqlite
unique-index IntegrityError being raised by the INSERT INTO books of a
lost title race; app.py wraps no try/except around that insert, so when
it fires the exception propagates (and the per-request connection is
closed without commit, rolling the transaction back). -/
def add_book (conflict : Bool) (app : AppState) (req : BookReq) : UpsertOut × AppState :=
  match pyFieldStr req.title with
  | .error _ => (.exn, app)
  | .ok title =>
    match pyFieldStr req.author with
    | .error _ => (.exn, app)
    | .ok author =>
      match pyFieldStr req.image_url with
      | .error _ => (.exn, app)
      | .ok imageS =>
        let image_url : Option String := if imageS = "" then none else some imageS
        if title = "" ∨ author = "" then (.badReq "title and author required", app)
        else
          match pyIntOpt req.publication_year with
          | none => (.badReq "publication_year must be an integer", app)
          | some year =>
            let st1 := ensureAuthor app.cat author
            let aid := findAuthorId st1 author
            match findBookNocase st1.books title with
            | some b =>
              let st2 := { st1 with
                books := updateBooks st1.books b.book_id (some year) image_url }
              let st3 := ensureLink st2 b.book_id aid
              (.ok 200 ((bookRowById st3 b.book_id).getD ⟨0, "", none, "", none⟩),
               { app with cat := st3 })
            | none =>
              if conflict then (.exn, app)
              else
                let bid := st1.nextBookId
                let st2 := { st1 with
                  books := st1.books ++ [⟨bid, title, some year, image_url⟩]
                  nextBookId := bid + 1 }
                let st3 := ensureLink st2 bid aid
                (.ok 201 ((bookRowById st3 bid).getD ⟨0, "", none, "", none⟩),
                 { app with cat := st3 })

/-! ### GET /api/reviews (get_reviews) -/

/-- Outcome of get_reviews (the 200 body is items plus count =
items.length). -/
inductive ListRevOut where
  | badReq (msg : String)
  | ok (items : List ReviewDoc)
deriving Repr, DecidableEq

/-- sort("created_at", -1): newest first. -/
def revDesc (d e : ReviewDoc) : Prop :=
  e.created_at ≤ d.created_at

instance : DecidableRel revDesc := fun d e =>
  inferInstanceAs (Decidable (e.created_at ≤ d.created_at))

instance : IsTotal ReviewDoc revDesc :=
  ⟨fun d e => le_total e.created_at d.created_at⟩

instance : IsTrans ReviewDoc revDesc :=
  ⟨fun _ _ _ h h' => le_trans h' h⟩

/-- The GET /api/reviews handler: missing/empty book_id and int() parse
failure give 400; otherwise the reviews with that book_id sorted by
created_at descending.  The catalog is never consulted. -/
def get_reviews (app : AppState) (bidParam : Option String) : ListRevOut :=
  match bidParam with
  | none => .badReq "book_id is required"
  | some s =>
    if s = "" then .badReq "book_id is required"
    else
      match pyParseInt s with
      | none => .badReq "book_id must be an integer"
      | some n =>
        .ok (List.insertionSort revDesc
          (app.rev.docs.filter (fun d => d.book_id == n)))

/-! ### POST /api/reviews (add_review) -/

/-- The JSON body of POST /api/reviews; a missing key is none. -/
structure ReviewReq where
  book_id : Option JValue
  reviewer : Option JValue
  rating : Option JValue
  text : Option JValue
deriving Repr, DecidableEq

/-- Outcome of add_review. -/
inductive ReviewOut where
  | badReq (msg : String)
  | notFound
  | created (doc : ReviewDoc)
deriving Repr, DecidableEq

/-- The per-field validation of add_review:
field not in data or (isinstance(data[field], str) and not
data[field].strip()). -/
def fieldMissingOrEmpty : Option JValue → Bool
  | none => true
  | some (.str s) => pyStrip s == ""
  | some _ => false

/-- SELECT 1 FROM books WHERE book_id = ?. -/
def bookExists (st : Catalog) (n : Int) : Bool :=
  st.books.any (fun b => (b.book_id : Int) == n)

/-- The POST /api/reviews handler.  now is the insertion-time UTC clock
reading. -/
def add_review (app : AppState) (req : ReviewReq) (now : Nat) : ReviewOut × AppState :=
  if fieldMissingOrEmpty req.book_id then (.badReq "book_id is required", app)
  else if fieldMissingOrEmpty req.reviewer then (.badReq "reviewer is required", app)
  else if fieldMissingOrEmpty req.rating then (.badReq "rating is required", app)
  else if fieldMissingOrEmpty req.text then (.badReq "text is required", app)
  else
    match pyIntOpt req.book_id, pyIntOpt req.rating with
    | some bid, some rating =>
      if rating < 1 ∨ rating > 5 then
        (.badReq "rating must be integer 1-5 and book_id integer", app)
      else if bookExists app.cat bid then
        let doc : ReviewDoc :=
          { oid := oidOfNat app.rev.nextOid
            book_id := bid
            reviewer := pyStrip (pyStr ((req.reviewer).getD .null))
            rating := rating
            text := pyStrip (pyStr ((req.text).getD .null))
            created_at := now }
        (.created doc,
         { app with rev := ⟨app.rev.docs ++ [doc], app.rev.nextOid + 1⟩ })
      else (.notFound, app)
    | _, _ => (.badReq "rating must be integer 1-5 and book_id integer", app)

/-! ### DELETE /api/reviews/id (delete_review) -/

/-- Outcome of delete_review. -/
inductive DeleteOut where
  | badReq (msg : String)
  | ok (deleted : Nat)
deriving Repr, DecidableEq

/-- Hex digits as accepted by bson ObjectId (either case). -/
def isHexChar (c : Char) : Bool :=
  c.isDigit || (97 ≤ c.toNat && c.toNat ≤ 102) || (65 ≤ c.toNat && c.toNat ≤ 70)

/-- ObjectId(rid) succeeds on a string of exactly 24 hex characters. -/
def validOid (s : String) : Bool :=
  s.data.length == 24 && s.data.all isHexChar

/-- The DELETE /api/reviews/rid handler: a malformed id gives 400,
otherwise delete_one removes the first (hence at most one) document
whose _id equals the (case-folded) ObjectId and reports the count. -/
def delete_review (app : AppState) (rid : String) : DeleteOut × AppState :=
  if validOid rid then
    let key := asciiLower rid
    let n : Nat := if app.rev.docs.any (fun d => d.oid == key) then 1 else 0
    (.ok n,
     { app with rev := ⟨app.rev.docs.eraseP (fun d => d.oid == key), app.rev.nextOid⟩ })
  else (.badReq "invalid review id", app)

/-! ### The LIKE pattern built by list_books, versus substring search -/

/-- Character lists free of LIKE metacharacters. -/
def wfreeL (p : List Char) : Prop :=
  ∀ c ∈ p, c ≠ '%' ∧ c ≠ '_'

/-- Strings whose case-folded characters contain no LIKE metacharacter
(folding only moves letters, so this just says the string has no
percent sign and no underscore). -/
def wfreeStr (q : String) : Prop :=
  ∀ c ∈ q.data, Char.toLower c ≠ '%' ∧ Char.toLower c ≠ '_'

/-- Case-insensitive substring containment: the notion the spec uses to
describe the query filter. -/
def containsCI (hay needle : String) : Prop :=
  (needle.data.map Char.toLower) <:+: (hay.data.map Char.toLower)

instance (hay needle : String) : Decidable (containsCI hay needle) :=
  List.decidableInfix _ _

instance (q : String) : Decidable (wfreeStr q) :=
  List.decidableBAll _ q.data

lemma likeAux_pct (s : List Char) : ∀ f, s.length + 2 ≤ f → likeAux f ['%'] s = true := by
  induction s with
  | nil =>
    intro f hf
    obtain ⟨g, rfl⟩ : ∃ g, f = g + 2 := ⟨f - 2, by omega⟩
    simp [likeAux]
  | cons c s ih =>
    intro f hf
    obtain ⟨g, rfl⟩ : ∃ g, f = g + 1 := ⟨f - 1, by omega⟩
    have h := ih g (by simp only [List.length_cons] at hf; omega)
    simp [likeAux, h]

lemma likeAux_tail_pct (p : List Char) (hw : wfreeL p) :
    ∀ s f, p.length + s.length + 2 ≤ f →
      (likeAux f (p ++ ['%']) s = true ↔ p <+: s) := by
  induction p with
  | nil =>
    intro s f hf
    simpa using likeAux_pct s f (by simpa using hf)
  | cons a p ih =>
    have ha1 : a ≠ '%' := (hw a (by simp)).1
    have ha2 : a ≠ '_' := (hw a (by simp)).2
    have hw' : wfreeL p := fun c hc => hw c (by simp [hc])
    intro s f hf
    obtain ⟨g, rfl⟩ : ∃ g, f = g + 1 := ⟨f - 1, by omega⟩
    cases s with
    | nil =>
      simp [likeAux, ha1]
    | cons c s' =>
      have h := ih hw' s' g
        (by simp only [List.length_cons] at hf ⊢; omega)
      simp [likeAux, ha1, ha2, h, List.cons_prefix_cons]

lemma likeAux_full (p : List Char) (hw : wfreeL p) :
    ∀ s f, p.length + s.length + 3 ≤ f →
      (likeAux f ('%' :: (p ++ ['%'])) s = true ↔ p <:+: s) := by
  intro s
  induction s with
  | nil =>
    intro f hf
    obtain ⟨g, rfl⟩ : ∃ g, f = g + 1 := ⟨f - 1, by omega⟩
    have h := likeAux_tail_pct p hw [] g (by simp at hf ⊢; omega)
    simp only [likeAux, if_pos rfl]
    simpa using h
  | cons c s' ih =>
    intro f hf
    obtain ⟨g, rfl⟩ : ∃ g, f = g + 1 := ⟨f - 1, by omega⟩
    have h1 := likeAux_tail_pct p hw (c :: s') g
      (by simp only [List.length_cons] at hf ⊢; omega)
    have h2 := ih g (by simp only [List.length_cons] at hf; omega)
    simp only [likeAux, if_pos rfl]
    simp [h1, h2, List.infix_cons_iff]

lemma data_append (a b : String) : (a ++ b).data = a.data ++ b.data := by
  cases a; cases b; rfl

/-- The SQL filter expr LIKE "%q%" is exactly case-insensitive substring
containment of q, provided q holds no LIKE metacharacter. -/
lemma sqliteLike_iff_containsCI {q s : String} (hw : wfreeStr q) :
    sqliteLike ("%" ++ q ++ "%") s = true ↔ containsCI s q := by
  have hdata : ("%" ++ q ++ "%").data = '%' :: (q.data ++ ['%']) := by
    simp [data_append]
  have hpct : Char.toLower '%' = '%' := by decide
  have hmap : ("%" ++ q ++ "%").data.map Char.toLower
      = '%' :: ((q.data.map Char.toLower) ++ ['%']) := by
    simp [hdata, hpct]
  have hwl : wfreeL (q.data.map Char.toLower) := by
    intro c hc
    obtain ⟨d, hd, rfl⟩ := List.mem_map.mp hc
    exact hw d hd
  unfold sqliteLike
  rw [hmap]
  have hlen : (q.data.map Char.toLower).length + (s.data.map Char.toLower).length + 3
      ≤ ('%' :: ((q.data.map Char.toLower) ++ ['%'])).length
        + (s.data.map Char.toLower).length + 1 := by
    simp only [List.length_map, List.length_cons, List.length_append, List.length_singleton]
    omega
  exact likeAux_full (q.data.map Char.toLower) hwl (s.data.map Char.toLower) _ hlen

/-- The result row the (amended) spec describes for one book under a
non-empty query: keep the book when its title or at least one linked
author name contains the query as a case-insensitive substring; display
the author names surviving the SQL WHERE filter (all of them when the
title matches, otherwise exactly the matching ones); default the image
to the placeholder. -/
def specMatchRow (st : Catalog) (q : String) (b : Book) : Option BookRow :=
  let names := authorsOfBook st b.book_id
  if containsCI b.title q ∨ (∃ n ∈ names, containsCI n q) then
    some
      { book_id := b.book_id
        title := b.title
        publication_year := b.publication_year
        image_url := b.image_url.getD DEFAULT_COVER
        authors := joinAuthors
          (if containsCI b.title q then names
           else names.filter (fun n => decide (containsCI n q))) }
  else none

lemma bookGroup_eq_spec (st : Catalog) {q : String} (hq : q ≠ "") (hw : wfreeStr q)
    (b : Book) : bookGroup st q b = specMatchRow st q b := by
  have hbool : ∀ n : String, sqliteLike ("%" ++ q ++ "%") n = decide (containsCI n q) := by
    intro n
    rw [Bool.eq_iff_iff]
    simp [sqliteLike_iff_containsCI hw]
  unfold bookGroup specMatchRow
  simp only [hq, if_false, reduceIte]
  by_cases ht : containsCI b.title q
  · simp [hbool, ht, mkRow]
  · have hfilter :
        (authorsOfBook st b.book_id).filter (fun n => sqliteLike ("%" ++ q ++ "%") n)
          = (authorsOfBook st b.book_id).filter (fun n => decide (containsCI n q)) :=
      List.filter_congr (fun n _ => hbool n)
    by_cases hex : ∃ n ∈ authorsOfBook st b.book_id, containsCI n q
    · have hne :
          (authorsOfBook st b.book_id).filter (fun n => decide (containsCI n q)) ≠ [] := by
        rw [Ne, List.filter_eq_nil_iff]
        push_neg
        obtain ⟨n, hn, hcn⟩ := hex
        exact ⟨n, hn, by simpa using hcn⟩
      simp [hbool, ht, hex, hfilter, mkRow, List.isEmpty_iff, hne]
    · have hnil :
          (authorsOfBook st b.book_id).filter (fun n => decide (containsCI n q)) = [] := by
        rw [List.filter_eq_nil_iff]
        intro n hn
        simp only [decide_eq_true_eq]
        exact fun hcn => hex ⟨n, hn, hcn⟩
      simp [hbool, ht, hex, hfilter, List.isEmpty_iff, hnil]

/-! ### Claim C3: GET /api/books with a non-empty query -/

/-- Claim C3, as stated, asks that every returned book carry ALL of its
linked authors; the counterexample below shows the SQL keeps only the
filter-surviving authors when the match is on an author name. -/
def c3cat : Catalog :=
  ⟨[⟨1, "Alpha", some 2000, none⟩], [⟨1, "Bob"⟩, ⟨2, "Carol"⟩], [(1, 1), (1, 2)], 2, 3⟩

/-- App state for the C3 scenario: one book, two linked authors. -/
def c3app : AppState := ⟨c3cat, ⟨[], 0⟩⟩

/-- Claim C3 counterexample: the book Alpha is linked to authors Bob and
Carol, yet listing with query Bob returns the book with display string
"Bob" alone — not all linked authors, contradicting the claim. -/
theorem list_books_c3_counterexample :
    authorsOfBook c3app.cat 1 = ["Bob", "Carol"] ∧
    list_books c3app (some "Bob") (some "all")
      = [⟨1, "Alpha", some 2000, DEFAULT_COVER, some "Bob"⟩] := by
  constructor
  · decide
  · decide

/-- Claim C3 (amended): for a GET /api/books call whose stripped query
is non-empty and free of LIKE wildcards, with an unbounded limit, the
result is a permutation of exactly the spec-described rows — one row
per book whose title or some linked author name contains the query
case-insensitively, carrying the filter-surviving author names (all of
them when the title matches) and the placeholder image when null — and
it is sorted by title, case-insensitively ascending. -/
theorem list_books_query (app : AppState) (qs : String)
    (hq : pyStrip qs ≠ "") (hw : wfreeStr (pyStrip qs)) :
    (list_books app (some qs) (some "all")).Perm
        (app.cat.books.filterMap (specMatchRow app.cat (pyStrip qs))) ∧
    List.Sorted rowLe (list_books app (some qs) (some "all")) := by
  have hlim : parseLimit (some "all") = none := by decide
  have hlb : list_books app (some qs) (some "all")
      = List.insertionSort rowLe
          (app.cat.books.filterMap (bookGroup app.cat (pyStrip qs))) := by
    simp only [list_books, hlim, applyLimit, Option.getD]
  have hcong : app.cat.books.filterMap (bookGroup app.cat (pyStrip qs))
      = app.cat.books.filterMap (specMatchRow app.cat (pyStrip qs)) :=
    List.filterMap_congr (fun b _ => bookGroup_eq_spec app.cat hq hw b)
  constructor
  · rw [hlb, hcong]
    exact List.perm_insertionSort rowLe _
  · rw [hlb]
    exact List.sorted_insertionSort rowLe _

/-- Claim C3 witness: the amended theorem applied to the two-author
scenario. -/
theorem list_books_query_witness :
    (list_books c3app (some "Bob") (some "all")).Perm
        (c3app.cat.books.filterMap (specMatchRow c3app.cat "Bob")) ∧
    List.Sorted rowLe (list_books c3app (some "Bob") (some "all")) := by
  have hps : pyStrip "Bob" = "Bob" := by decide
  have h := list_books_query c3app "Bob" (by decide) (by decide)
  rwa [hps] at h

/-! ### Claim C6: GET /api/reviews parameter validation -/

/-- Claim C6 (amended): GET /api/reviews answers 400 exactly when the
book_id query parameter is missing, empty, or fails Python
int() conversion; any successfully parsed integer — including zero and
negative values, which the claim said would be rejected — is accepted
and answered with a 200 list. -/
theorem get_reviews_param_validation (app : AppState) (bidParam : Option String) :
    ((∃ m, get_reviews app bidParam = .badReq m) ↔
        bidParam = none ∨ ∃ s, bidParam = some s ∧ (s = "" ∨ pyParseInt s = none)) ∧
    (∀ s n, bidParam = some s → s ≠ "" → pyParseInt s = some n →
        ∃ items, get_reviews app bidParam = .ok items) := by
  constructor
  · cases bidParam with
    | none => simp [get_reviews]
    | some s =>
      by_cases hs : s = ""
      · subst hs
        simp [get_reviews]
      · cases hp : pyParseInt s with
        | none => simp [get_reviews, hs, hp]
        | some n => simp [get_reviews, hs, hp]
  · intro s n hb hs hp
    subst hb
    simp [get_reviews, hs, hp]

/-- Claim C6 app state: empty stores. -/
def c6app : AppState := ⟨⟨[], [], [], 1, 1⟩, ⟨[], 0⟩⟩

/-- Claim C6 counterexample: book_id zero and a negative book_id are not
positive integers, yet the handler answers 200 with an empty list
instead of the claimed 400. -/
theorem get_reviews_c6_counterexample :
    get_reviews c6app (some "0") = .ok [] ∧
    get_reviews c6app (some "-3") = .ok [] ∧
    pyParseInt "0" = some 0 ∧ pyParseInt "-3" = some (-3) := by
  decide

/-- Claim C6 witness: the amended theorem applied to a concrete state
and parameter. -/
theorem get_reviews_param_validation_witness :
    ∃ m, get_reviews c6app (some "abc") = ListRevOut.badReq m :=
  (get_reviews_param_validation c6app (some "abc")).1.mpr
    (Or.inr ⟨"abc", rfl, Or.inr (by decide)⟩)

/-! ### Claim C8: GET /api/reviews result contents -/

/-- Claim C8: for a well-formed book_id parameter the handler returns
exactly the stored reviews with that book_id, sorted by created_at
descending, and an empty list when none exist.  The catalog component
of the state is arbitrary and never consulted, so the conclusion holds
in particular when the book does not exist in the catalog. -/
theorem get_reviews_list_spec (app : AppState) (s : String) (n : Int)
    (hs : s ≠ "") (hp : pyParseInt s = some n) :
    ∃ items, get_reviews app (some s) = .ok items ∧
      items.Perm (app.rev.docs.filter (fun d => d.book_id == n)) ∧
      List.Sorted revDesc items ∧
      (app.rev.docs.filter (fun d => d.book_id == n) = [] → items = []) := by
  refine ⟨List.insertionSort revDesc (app.rev.docs.filter (fun d => d.book_id == n)),
    ?_, List.perm_insertionSort revDesc _, List.sorted_insertionSort revDesc _, ?_⟩
  · simp [get_reviews, hs, hp]
  · intro hnil
    rw [hnil]
    rfl

/-- Claim C8 app state: two reviews for book 1 (older first in storage)
and one for book 2; the catalog does not contain book 1. -/
def c8app : AppState :=
  ⟨⟨[], [], [], 1, 1⟩,
   ⟨[⟨oidOfNat 0, 1, "a", 5, "ta", 3⟩, ⟨oidOfNat 1, 1, "b", 4, "tb", 7⟩,
     ⟨oidOfNat 2, 2, "c", 3, "tc", 5⟩], 3⟩⟩

/-- Claim C8 witness: the theorem applied to the concrete state, for a
book absent from the catalog. -/
theorem get_reviews_list_spec_witness :
    (∃ items, get_reviews c8app (some "1") = .ok items ∧
      items.Perm (c8app.rev.docs.filter (fun d => d.book_id == (1 : Int))) ∧
      List.Sorted revDesc items ∧
      (c8app.rev.docs.filter (fun d => d.book_id == (1 : Int)) = [] → items = [])) ∧
    bookExists c8app.cat 1 = false :=
  ⟨get_reviews_list_spec c8app "1" 1 (by decide) (by decide), by decide⟩

/-! ### Claim C7: DELETE /api/reviews/id -/

lemma eraseP_no_second {l : List ReviewDoc} {key : String}
    (hnd : (l.map (fun d => d.oid)).Nodup) :
    (l.eraseP (fun d => d.oid == key)).any (fun d => d.oid == key) = false := by
  induction l with
  | nil => simp
  | cons d l ih =>
    simp only [List.map_cons, List.nodup_cons] at hnd
    by_cases hd : d.oid = key
    · have hb : (d.oid == key) = true := by simpa using hd
      simp only [List.eraseP_cons, hb, cond_true]
      rw [List.any_eq_false]
      intro x hx hpx
      have hxk : x.oid = key := by simpa using hpx
      exact hnd.1 (List.mem_map.mpr ⟨x, hx, by rw [hxk, hd]⟩)
    · have hb : (d.oid == key) = false := by simpa using hd
      simp only [List.eraseP_cons, hb, cond_false, List.any_cons, Bool.false_or]
      exact ih hnd.2

/-- Evaluation of delete_review on a well-formed id. -/
lemma delete_review_eval (app : AppState) (rid : String) (hv : validOid rid = true) :
    delete_review app rid =
      (.ok (if app.rev.docs.any (fun d => d.oid == asciiLower rid) then 1 else 0),
       { app with
         rev := ⟨app.rev.docs.eraseP (fun d => d.oid == asciiLower rid),
                 app.rev.nextOid⟩ }) := by
  simp [delete_review, hv]

lemma appState_rebuild (Y : AppState) (d : List ReviewDoc) (hd : d = Y.rev.docs) :
    ({ Y with rev := ⟨d, Y.rev.nextOid⟩ } : AppState) = Y := by
  subst hd
  rfl

/-- Claim C7: deleting with a malformed id gives 400 and changes
nothing; with a well-formed 24-hex id over a store with distinct ids
(Mongo enforces _id uniqueness), the handler deletes at most one
document and reports the count — 1 then 0 on repetition when the id is
present, 0 with the store untouched when absent. -/
theorem delete_review_spec (app : AppState) (rid : String) :
    (validOid rid = false → delete_review app rid = (.badReq "invalid review id", app)) ∧
    (validOid rid = true →
      (app.rev.docs.map (fun d => d.oid)).Nodup →
        ((app.rev.docs.any (fun d => d.oid == asciiLower rid) = true →
            (delete_review app rid).1 = .ok 1 ∧
            (delete_review app rid).2.rev.docs.length + 1 = app.rev.docs.length ∧
            (delete_review (delete_review app rid).2 rid).1 = .ok 0 ∧
            (delete_review (delete_review app rid).2 rid).2 = (delete_review app rid).2) ∧
         (app.rev.docs.any (fun d => d.oid == asciiLower rid) = false →
            (delete_review app rid).1 = .ok 0 ∧ (delete_review app rid).2 = app))) := by
  constructor
  · intro hv
    simp [delete_review, hv]
  · intro hv hnd
    have heval := delete_review_eval app rid hv
    constructor
    · intro hany
      have h1 : (delete_review app rid).1 = .ok 1 := by
        rw [heval, hany]
        rfl
      have hdocs : (delete_review app rid).2.rev.docs
          = app.rev.docs.eraseP (fun d => d.oid == asciiLower rid) := by
        rw [heval]
      obtain ⟨x, hx, hpx⟩ := List.any_eq_true.mp hany
      have hlen : (app.rev.docs.eraseP (fun d => d.oid == asciiLower rid)).length
          = app.rev.docs.length - 1 := List.length_eraseP_of_mem hx hpx
      have hpos : 1 ≤ app.rev.docs.length := List.length_pos.mpr (by
        intro h
        rw [h] at hx
        exact (List.not_mem_nil x) hx)
      have hnone : ((delete_review app rid).2.rev.docs).any
          (fun d => d.oid == asciiLower rid) = false := by
        rw [hdocs]
        exact eraseP_no_second hnd
      have heval2 := delete_review_eval (delete_review app rid).2 rid hv
      have hkeep : ((delete_review app rid).2.rev.docs).eraseP
          (fun d => d.oid == asciiLower rid) = (delete_review app rid).2.rev.docs :=
        List.eraseP_of_forall_not (List.any_eq_false.mp hnone)
      refine ⟨h1, by rw [hdocs, hlen]; omega, ?_, ?_⟩
      · rw [heval2, hnone]
        rfl
      · rw [heval2]
        exact appState_rebuild _ _ hkeep
    · intro hany
      have hkeep : (app.rev.docs.eraseP (fun d => d.oid == asciiLower rid))
          = app.rev.docs :=
        List.eraseP_of_forall_not (List.any_eq_false.mp hany)
      constructor
      · rw [heval, hany]
        rfl
      · rw [heval]
        exact appState_rebuild _ _ hkeep

/-- Claim C7 app state: one stored review with the deterministic first
ObjectId. -/
def c7app : AppState :=
  ⟨⟨[], [], [], 1, 1⟩, ⟨[⟨oidOfNat 0, 1, "r", 5, "t", 3⟩], 1⟩⟩

/-- Claim C7 witness: deleting the review returns 1, deleting the same
id again returns 0, and a malformed id gets a 400. -/
theorem delete_review_spec_witness :
    (delete_review c7app "000000000000000000000000").1 = .ok 1 ∧
    (delete_review (delete_review c7app "000000000000000000000000").2
        "000000000000000000000000").1 = .ok 0 ∧
    delete_review c7app "zz" = (.badReq "invalid review id", c7app) := by
  have h := delete_review_spec c7app "000000000000000000000000"
  have h2 := (h.2 (by decide) (by decide)).1 (by decide)
  have h3 := (delete_review_spec c7app "zz").1 (by decide)
  exact ⟨h2.1, h2.2.2.1, h3⟩

/-! ### POST /api/reviews: evaluation lemmas -/

/-- The document the handler builds on a successful add. -/
def mkReviewDoc (app : AppState) (req : ReviewReq) (now : Nat) (bid rating : Int) :
    ReviewDoc :=
  ⟨oidOfNat app.rev.nextOid, bid, pyStrip (pyStr ((req.reviewer).getD .null)), rating,
   pyStrip (pyStr ((req.text).getD .null)), now⟩

/-- Evaluation of add_review when every check passes. -/
lemma add_review_created (app : AppState) (req : ReviewReq) (now : Nat) (bid rating : Int)
    (h1 : fieldMissingOrEmpty req.book_id = false)
    (h2 : fieldMissingOrEmpty req.reviewer = false)
    (h3 : fieldMissingOrEmpty req.rating = false)
    (h4 : fieldMissingOrEmpty req.text = false)
    (hb : pyIntOpt req.book_id = some bid)
    (hr : pyIntOpt req.rating = some rating)
    (hrange : ¬(rating < 1 ∨ rating > 5))
    (hex : bookExists app.cat bid = true) :
    add_review app req now =
      (.created (mkReviewDoc app req now bid rating),
       ⟨app.cat, ⟨app.rev.docs ++ [mkReviewDoc app req now bid rating],
         app.rev.nextOid + 1⟩⟩) := by
  simp [add_review, h1, h2, h3, h4, hb, hr, hrange, hex, mkReviewDoc]

/-! ### Claim C10: JSON null reviewer/text pass validation as "None" -/

/-- Claim C10: a POST /api/reviews body whose reviewer (or text) field
is present but JSON null is not rejected — null is not a string so the
missing/empty check passes — and the stored document holds the literal
string "None" for that field, str(None) stripped. -/
theorem add_review_null_field (app : AppState) (req : ReviewReq) (now : Nat)
    (n r : Int) (vr vt : JValue)
    (hbid : req.book_id = some (.int n)) (hex : bookExists app.cat n = true)
    (hrat : req.rating = some (.int r)) (hr1 : 1 ≤ r) (hr5 : r ≤ 5)
    (hrev : req.reviewer = some vr) (htxt : req.text = some vt)
    (_hnull : vr = .null ∨ vt = .null)
    (hrev' : fieldMissingOrEmpty req.reviewer = false)
    (htxt' : fieldMissingOrEmpty req.text = false) :
    ∃ doc app2, add_review app req now = (.created doc, app2) ∧
      app2.rev.docs = app.rev.docs ++ [doc] ∧
      (vr = .null → doc.reviewer = "None") ∧
      (vt = .null → doc.text = "None") := by
  have he := add_review_created app req now n r
    (by rw [hbid]; rfl) hrev' (by rw [hrat]; rfl) htxt'
    (by rw [hbid]; rfl) (by rw [hrat]; rfl) (by omega) hex
  refine ⟨_, _, he, rfl, ?_, ?_⟩
  · intro hv
    simp only [mkReviewDoc]
    rw [hrev, hv]
    rfl
  · intro hv
    simp only [mkReviewDoc]
    rw [htxt, hv]
    rfl

/-- Claim C10 app state: one book in the catalog, no reviews. -/
def c10app : AppState := ⟨⟨[⟨1, "Dune", some 1965, none⟩], [], [], 2, 1⟩, ⟨[], 0⟩⟩

/-- Claim C10 witness: reviewer explicitly null, valid book and rating:
the request is accepted and stores reviewer "None". -/
theorem add_review_null_field_witness :
    ∃ doc app2,
      add_review c10app ⟨some (.int 1), some .null, some (.int 5), some (.str "x")⟩ 7
        = (.created doc, app2) ∧
      app2.rev.docs = c10app.rev.docs ++ [doc] ∧
      (JValue.null = .null → doc.reviewer = "None") ∧
      (JValue.str "x" = .null → doc.text = "None") :=
  add_review_null_field c10app
    ⟨some (.int 1), some .null, some (.int 5), some (.str "x")⟩ 7 1 5 .null (.str "x")
    rfl (by decide) rfl (by decide) (by decide) rfl rfl (Or.inl rfl) (by decide) (by decide)

/-! ### Claim C4: add → listByBook round trip -/

/-- Claim C4 app state and request: the supplied reviewer carries
surrounding whitespace. -/
def c4app : AppState := ⟨⟨[⟨1, "Dune", some 1965, none⟩], [], [], 2, 1⟩, ⟨[], 0⟩⟩

/-- The C4 request with an untrimmed reviewer string. -/
def c4req : ReviewReq :=
  ⟨some (.int 1), some (.str " Bob "), some (.int 5), some (.str "x")⟩

/-- Claim C4 counterexample: the review is added successfully with the
supplied reviewer " Bob ", but the round trip returns reviewer "Bob" —
the handler strips the stored strings, so the claim that listByBook
returns the same reviewer as supplied fails. -/
theorem add_review_c4_counterexample :
    c4req.reviewer = some (.str " Bob ") ∧
    (add_review c4app c4req 5).1 = .created ⟨oidOfNat 0, 1, "Bob", 5, "x", 5⟩ ∧
    get_reviews (add_review c4app c4req 5).2 (some "1")
      = .ok [⟨oidOfNat 0, 1, "Bob", 5, "x", 5⟩] ∧
    ("Bob" : String) ≠ " Bob " := by
  refine ⟨rfl, by decide, by decide, by decide⟩

/-- Claim C4 (amended): a successfully validated add stores reviewer and
text equal to str() of the supplied values stripped of surrounding
whitespace (hence verbatim whenever the supplied values are already
trimmed strings), the exact supplied rating, and created_at equal to
the insertion-time clock (so never earlier than the request); a
subsequent listByBook for that book returns the stored document. -/
theorem add_review_roundtrip (app : AppState) (req : ReviewReq) (now : Nat)
    (n r : Int) (vr vt : JValue) (s : String)
    (hbid : req.book_id = some (.int n)) (hex : bookExists app.cat n = true)
    (hrat : req.rating = some (.int r)) (hr1 : 1 ≤ r) (hr5 : r ≤ 5)
    (hrev : req.reviewer = some vr) (hrev' : fieldMissingOrEmpty req.reviewer = false)
    (htxt : req.text = some vt) (htxt' : fieldMissingOrEmpty req.text = false)
    (hs : s ≠ "") (hp : pyParseInt s = some n) :
    ∃ doc app2 items,
      add_review app req now = (.created doc, app2) ∧
      doc.reviewer = pyStrip (pyStr vr) ∧ doc.rating = r ∧
      doc.text = pyStrip (pyStr vt) ∧ doc.created_at = now ∧
      get_reviews app2 (some s) = .ok items ∧ doc ∈ items := by
  have he := add_review_created app req now n r
    (by rw [hbid]; rfl) hrev' (by rw [hrat]; rfl) htxt'
    (by rw [hbid]; rfl) (by rw [hrat]; rfl) (by omega) hex
  refine ⟨mkReviewDoc app req now n r,
     ⟨app.cat, ⟨app.rev.docs ++ [mkReviewDoc app req now n r], app.rev.nextOid + 1⟩⟩,
     List.insertionSort revDesc ((app.rev.docs ++ [mkReviewDoc app req now n r]).filter
       (fun d => d.book_id == n)),
     he, ?_, rfl, ?_, rfl, ?_, ?_⟩
  · show pyStrip (pyStr ((req.reviewer).getD .null)) = pyStrip (pyStr vr)
    rw [hrev]
    rfl
  · show pyStrip (pyStr ((req.text).getD .null)) = pyStrip (pyStr vt)
    rw [htxt]
    rfl
  · simp [get_reviews, hs, hp]
  · rw [(List.perm_insertionSort revDesc _).mem_iff, List.mem_filter]
    refine ⟨List.mem_append_right _ (by simp), ?_⟩
    show ((mkReviewDoc app req now n r).book_id == n) = true
    simp [mkReviewDoc]

/-- Claim C4 witness: the amended round trip applied to a trimmed
request (reviewer Ann, rating 4). -/
theorem add_review_roundtrip_witness :
    ∃ doc app2 items,
      add_review c4app ⟨some (.int 1), some (.str "Ann"), some (.int 4), some (.str "good")⟩ 9
        = (.created doc, app2) ∧
      doc.reviewer = pyStrip (pyStr (.str "Ann")) ∧ doc.rating = 4 ∧
      doc.text = pyStrip (pyStr (.str "good")) ∧ doc.created_at = 9 ∧
      get_reviews app2 (some "1") = .ok items ∧ doc ∈ items :=
  add_review_roundtrip c4app
    ⟨some (.int 1), some (.str "Ann"), some (.int 4), some (.str "good")⟩ 9 1 4
    (.str "Ann") (.str "good") "1" rfl (by decide) rfl (by decide) (by decide)
    rfl (by decide) rfl (by decide) (by decide) (by decide)

/-! ### Claim C2: POST /api/reviews validation -/

/-- The spec's notion of a missing-or-empty field: absent, or a string
that is empty after trimming. -/
def fieldBad (v : Option JValue) : Prop :=
  v = none ∨ ∃ s, v = some (.str s) ∧ pyStrip s = ""

lemma fieldBad_iff (v : Option JValue) : fieldBad v ↔ fieldMissingOrEmpty v = true := by
  cases v with
  | none => simp [fieldBad, fieldMissingOrEmpty]
  | some w => cases w <;> simp [fieldBad, fieldMissingOrEmpty]

/-- Claim C2 (amended): POST /api/reviews answers 400 exactly when some
of the four fields is missing or is a string empty after trimming, or
when int() conversion of book_id or rating fails (note a numeric string
or a boolean converts and is NOT rejected, unlike what the claim says
for non-integer values), or when the converted rating lies outside
[1,5].  When validation passes and the book_id is not in the catalog
the answer is the 404 NotFound.  Whenever no document is created the
state is unchanged — no review is persisted on any failure. -/
theorem add_review_validation (app : AppState) (req : ReviewReq) (now : Nat) :
    ((∃ m, (add_review app req now).1 = .badReq m) ↔
        (fieldBad req.book_id ∨ fieldBad req.reviewer ∨ fieldBad req.rating ∨
          fieldBad req.text) ∨
        (pyIntOpt req.book_id = none ∨ pyIntOpt req.rating = none ∨
          ∃ r, pyIntOpt req.rating = some r ∧ (r < 1 ∨ 5 < r))) ∧
    (∀ n r, pyIntOpt req.book_id = some n → pyIntOpt req.rating = some r →
        ¬ fieldBad req.book_id → ¬ fieldBad req.reviewer → ¬ fieldBad req.rating →
        ¬ fieldBad req.text → 1 ≤ r → r ≤ 5 → bookExists app.cat n = false →
        (add_review app req now).1 = .notFound) ∧
    ((¬ ∃ doc, (add_review app req now).1 = .created doc) →
        (add_review app req now).2 = app) := by
  by_cases h1 : fieldMissingOrEmpty req.book_id = true
  · have he : add_review app req now = (.badReq "book_id is required", app) := by
      simp [add_review, h1]
    refine ⟨⟨fun _ => Or.inl (Or.inl ((fieldBad_iff _).mpr h1)), fun _ => ⟨_, by rw [he]⟩⟩,
      ?_, by rw [he]; intro _; rfl⟩
    intro n r _ _ hnb _ _ _ _ _ _
    exact absurd ((fieldBad_iff _).mpr h1) hnb
  · have h1f : fieldMissingOrEmpty req.book_id = false := by
      simpa using h1
    by_cases h2 : fieldMissingOrEmpty req.reviewer = true
    · have he : add_review app req now = (.badReq "reviewer is required", app) := by
        simp [add_review, h1f, h2]
      refine ⟨⟨fun _ => Or.inl (Or.inr (Or.inl ((fieldBad_iff _).mpr h2))),
        fun _ => ⟨_, by rw [he]⟩⟩, ?_, by rw [he]; intro _; rfl⟩
      intro n r _ _ _ hnb _ _ _ _ _
      exact absurd ((fieldBad_iff _).mpr h2) hnb
    · have h2f : fieldMissingOrEmpty req.reviewer = false := by
        simpa using h2
      by_cases h3 : fieldMissingOrEmpty req.rating = true
      · have he : add_review app req now = (.badReq "rating is required", app) := by
          simp [add_review, h1f, h2f, h3]
        refine ⟨⟨fun _ => Or.inl (Or.inr (Or.inr (Or.inl ((fieldBad_iff _).mpr h3)))),
          fun _ => ⟨_, by rw [he]⟩⟩, ?_, by rw [he]; intro _; rfl⟩
        intro n r _ _ _ _ hnb _ _ _ _
        exact absurd ((fieldBad_iff _).mpr h3) hnb
      · have h3f : fieldMissingOrEmpty req.rating = false := by
          simpa using h3
        by_cases h4 : fieldMissingOrEmpty req.text = true
        · have he : add_review app req now = (.badReq "text is required", app) := by
            simp [add_review, h1f, h2f, h3f, h4]
          refine ⟨⟨fun _ =>
            Or.inl (Or.inr (Or.inr (Or.inr ((fieldBad_iff _).mpr h4)))),
            fun _ => ⟨_, by rw [he]⟩⟩, ?_, by rw [he]; intro _; rfl⟩
          intro n r _ _ _ _ _ hnb _ _ _
          exact absurd ((fieldBad_iff _).mpr h4) hnb
        · have h4f : fieldMissingOrEmpty req.text = false := by
            simpa using h4
          have hnofield : ¬ (fieldBad req.book_id ∨ fieldBad req.reviewer ∨
              fieldBad req.rating ∨ fieldBad req.text) := by
            simp only [fieldBad_iff, h1f, h2f, h3f, h4f]
            simp
          obtain hb | ⟨bid, hb⟩ : pyIntOpt req.book_id = none ∨
              ∃ b, pyIntOpt req.book_id = some b := by
            cases pyIntOpt req.book_id
            · exact Or.inl rfl
            · exact Or.inr ⟨_, rfl⟩
          · have he : add_review app req now
                = (.badReq "rating must be integer 1-5 and book_id integer", app) := by
              simp [add_review, h1f, h2f, h3f, h4f, hb]
            refine ⟨⟨fun _ => Or.inr (Or.inl hb), fun _ => ⟨_, by rw [he]⟩⟩,
              ?_, by rw [he]; intro _; rfl⟩
            intro n r hb' _ _ _ _ _ _ _ _
            rw [hb] at hb'
            cases hb'
          · obtain hr | ⟨rating, hr⟩ : pyIntOpt req.rating = none ∨
                ∃ b, pyIntOpt req.rating = some b := by
              cases pyIntOpt req.rating
              · exact Or.inl rfl
              · exact Or.inr ⟨_, rfl⟩
            · have he : add_review app req now
                  = (.badReq "rating must be integer 1-5 and book_id integer", app) := by
                simp [add_review, h1f, h2f, h3f, h4f, hb, hr]
              refine ⟨⟨fun _ => Or.inr (Or.inr (Or.inl hr)), fun _ => ⟨_, by rw [he]⟩⟩,
                ?_, by rw [he]; intro _; rfl⟩
              intro n r _ hr' _ _ _ _ _ _ _
              rw [hr] at hr'
              cases hr'
            · by_cases hrange : rating < 1 ∨ rating > 5
              · have he : add_review app req now
                    = (.badReq "rating must be integer 1-5 and book_id integer", app) := by
                  simp only [add_review, h1f, h2f, h3f, h4f, hb, hr]
                  simp [hrange]
                refine ⟨⟨fun _ => Or.inr (Or.inr (Or.inr ⟨rating, hr, by omega⟩)),
                  fun _ => ⟨_, by rw [he]⟩⟩, ?_, by rw [he]; intro _; rfl⟩
                intro n r _ hr' _ _ _ _ hge hle _
                rw [hr] at hr'
                injection hr' with hrr
                omega
              · have hnorange : ¬ (pyIntOpt req.book_id = none ∨
                    pyIntOpt req.rating = none ∨
                    ∃ r, pyIntOpt req.rating = some r ∧ (r < 1 ∨ 5 < r)) := by
                  rw [hb, hr]
                  push_neg
                  refine ⟨by simp, by simp, ?_⟩
                  intro r hr'
                  have hrr : r = rating := by
                    injection hr' with h
                    omega
                  subst hrr
                  omega
                rcases Bool.eq_false_or_eq_true (bookExists app.cat bid) with hex | hex
                · have he := add_review_created app req now bid rating
                    h1f h2f h3f h4f hb hr hrange hex
                  refine ⟨⟨?_, ?_⟩, ?_, ?_⟩
                  · intro ⟨m, hm⟩
                    rw [he] at hm
                    cases hm
                  · intro hor
                    rcases hor with hA | hB
                    · exact absurd hA hnofield
                    · exact absurd hB hnorange
                  · intro n r hb' hr' _ _ _ _ _ _ hex'
                    rw [hb] at hb'
                    injection hb' with hb''
                    rw [← hb'', hex] at hex'
                    cases hex'
                  · intro hnc
                    exact absurd ⟨_, by rw [he]⟩ hnc
                · have he : add_review app req now = (.notFound, app) := by
                    simp only [add_review, h1f, h2f, h3f, h4f, hb, hr]
                    simp [hrange, hex]
                  refine ⟨⟨?_, ?_⟩, ?_, by rw [he]; intro _; rfl⟩
                  · intro ⟨m, hm⟩
                    rw [he] at hm
                    cases hm
                  · intro hor
                    rcases hor with hA | hB
                    · exact absurd hA hnofield
                    · exact absurd hB hnorange
                  · intro n r _ _ _ _ _ _ _ _ _
                    rw [he]

/-- Claim C2 app state: the catalog holds book 1. -/
def c2app : AppState := ⟨⟨[⟨1, "Dune", some 1965, none⟩], [], [], 2, 1⟩, ⟨[], 0⟩⟩

/-- The C2 request whose rating is the string "3" — not an integer. -/
def c2req : ReviewReq :=
  ⟨some (.int 1), some (.str "Bob"), some (.str "3"), some (.str "fine")⟩

/-- Claim C2 counterexample: the rating field holds the JSON string "3",
which is not an integer, yet the request is not rejected with 400 — it
is accepted (201) and a document is persisted, because int() converts
numeric strings. -/
theorem add_review_c2_counterexample :
    c2req.rating = some (.str "3") ∧
    add_review c2app c2req 10
      = (.created ⟨oidOfNat 0, 1, "Bob", 3, "fine", 10⟩,
         ⟨c2app.cat, ⟨[⟨oidOfNat 0, 1, "Bob", 3, "fine", 10⟩], 1⟩⟩) := by
  constructor
  · rfl
  · decide

/-- Claim C2 witness: the amended validation theorem applied to an
out-of-range rating. -/
theorem add_review_validation_witness :
    ∃ m, (add_review c2app
        ⟨some (.int 1), some (.str "Bob"), some (.int 9), some (.str "x")⟩ 3).1
      = ReviewOut.badReq m :=
  (add_review_validation c2app
      ⟨some (.int 1), some (.str "Bob"), some (.int 9), some (.str "x")⟩ 3).1.mpr
    (Or.inr (Or.inr (Or.inr ⟨9, rfl, by omega⟩)))

/-! ### Catalog helper lemmas -/

lemma ensureAuthor_books (st : Catalog) (name : String) :
    (ensureAuthor st name).books = st.books := by
  unfold ensureAuthor
  split <;> rfl

lemma ensureAuthor_links (st : Catalog) (name : String) :
    (ensureAuthor st name).links = st.links := by
  unfold ensureAuthor
  split <;> rfl

lemma ensureAuthor_nextBookId (st : Catalog) (name : String) :
    (ensureAuthor st name).nextBookId = st.nextBookId := by
  unfold ensureAuthor
  split <;> rfl

lemma ensureLink_books (st : Catalog) (bid aid : Nat) :
    (ensureLink st bid aid).books = st.books := by
  unfold ensureLink
  split <;> rfl

lemma ensureLink_authors (st : Catalog) (bid aid : Nat) :
    (ensureLink st bid aid).authors = st.authors := by
  unfold ensureLink
  split <;> rfl

lemma ensureLink_mem (st : Catalog) (bid aid : Nat) :
    (bid, aid) ∈ (ensureLink st bid aid).links := by
  unfold ensureLink
  split
  · assumption
  · exact List.mem_append_right _ (by simp)

lemma ensureLink_of_mem (st : Catalog) (bid aid : Nat) (h : (bid, aid) ∈ st.links) :
    ensureLink st bid aid = st := by
  unfold ensureLink
  simp [h]

lemma ensureLink_of_not_mem (st : Catalog) (bid aid : Nat) (h : (bid, aid) ∉ st.links) :
    (ensureLink st bid aid).links = st.links ++ [(bid, aid)] := by
  unfold ensureLink
  simp [h]

lemma updateBooks_map_idTitle (books : List Book) (bid : Nat) (y : Option Int)
    (img : Option String) :
    (updateBooks books bid y img).map (fun x => (x.book_id, x.title))
      = books.map (fun x => (x.book_id, x.title)) := by
  unfold updateBooks
  rw [List.map_map]
  apply List.map_congr_left
  intro x _
  by_cases hx : x.book_id = bid <;> simp [hx, updateBookRow]

lemma find?_updateBooks {books : List Book} {b : Book} (hmem : b ∈ books)
    (hnd : (books.map (fun x => x.book_id)).Nodup) (y : Option Int)
    (img : Option String) :
    (updateBooks books b.book_id y img).find? (fun x => x.book_id == b.book_id)
      = some (updateBookRow b y img) := by
  induction books with
  | nil => cases hmem
  | cons hd tl ih =>
    simp only [List.map_cons, List.nodup_cons] at hnd
    by_cases hh : hd.book_id = b.book_id
    · have hdb : hd = b := by
        rcases List.mem_cons.mp hmem with h | h
        · exact h.symm
        · exact absurd (List.mem_map.mpr ⟨b, h, hh.symm⟩) hnd.1
      subst hdb
      unfold updateBooks
      simp only [List.map_cons, if_pos hh]
      apply List.find?_cons_of_pos
      simp [updateBookRow]
    · have hbtl : b ∈ tl := by
        rcases List.mem_cons.mp hmem with h | h
        · subst h
          exact absurd rfl hh
        · exact h
      unfold updateBooks
      simp only [List.map_cons, if_neg hh]
      rw [List.find?_cons_of_neg _ (by simpa using hh)]
      exact ih hbtl hnd.2

/-- A link from a book to an author of the given name exists. -/
def authorLinkedTo (st : Catalog) (bid : Nat) (name : String) : Prop :=
  ∃ l ∈ st.links, l.1 = bid ∧ ∃ ar ∈ st.authors, ar.author_id = l.2 ∧ ar.name = name

instance (st : Catalog) (bid : Nat) (name : String) :
    Decidable (authorLinkedTo st bid name) := by
  unfold authorLinkedTo
  infer_instance

/-- Number of book_author rows for a book. -/
def countLinks (st : Catalog) (bid : Nat) : Nat :=
  (st.links.filter (fun l => l.1 == bid)).length

/-- The store-level constraints SQLite maintains for the catalog:
primary-key uniqueness of book ids, the UNIQUE constraint on author
names, rowid freshness for authors, and the link table's foreign key
into authors. -/
def CatalogWF (st : Catalog) : Prop :=
  (st.books.map (fun b => b.book_id)).Nodup ∧
  (st.authors.map (fun a => a.name)).Nodup ∧
  (∀ a ∈ st.authors, a.author_id < st.nextAuthorId) ∧
  (∀ l ∈ st.links, ∃ a ∈ st.authors, a.author_id = l.2)

instance (st : Catalog) : Decidable (CatalogWF st) := by
  unfold CatalogWF
  infer_instance

lemma ensureAuthor_cases (st : Catalog) (name : String) :
    (st.authors.any (fun a => a.name == name) = true ∧ ensureAuthor st name = st) ∨
    (st.authors.any (fun a => a.name == name) = false ∧
      (ensureAuthor st name).authors = st.authors ++ [⟨st.nextAuthorId, name⟩] ∧
      findAuthorId (ensureAuthor st name) name = st.nextAuthorId) := by
  rcases Bool.eq_false_or_eq_true (st.authors.any (fun a => a.name == name)) with h | h
  · refine Or.inl ⟨h, ?_⟩
    unfold ensureAuthor
    simp [h]
  · refine Or.inr ⟨h, ?_, ?_⟩
    · unfold ensureAuthor
      simp [h]
    · unfold ensureAuthor findAuthorId
      simp only [h]
      rw [if_neg (by simp [h])]
      have hnone : st.authors.find? (fun a => a.name == name) = none :=
        List.find?_eq_none.mpr (List.any_eq_false.mp h)
      simp [List.find?_append, hnone]

/-- The author row the add_book handler resolves after INSERT OR
IGNORE: it carries the requested name and the id that findAuthorId
returns. -/
lemma ensureAuthor_found (st : Catalog) (name : String) :
    ∃ ar, ar ∈ (ensureAuthor st name).authors ∧ ar.name = name ∧
      ar.author_id = findAuthorId (ensureAuthor st name) name := by
  rcases ensureAuthor_cases st name with ⟨hany, heq⟩ | ⟨_, hauth, hid⟩
  · rw [heq]
    obtain ⟨x, hx, hpx⟩ := List.any_eq_true.mp hany
    have hsome : (st.authors.find? (fun a => a.name == name)).isSome :=
      List.find?_isSome.mpr ⟨x, hx, hpx⟩
    obtain ⟨r, hr⟩ := Option.isSome_iff_exists.mp hsome
    refine ⟨r, List.mem_of_find?_eq_some hr, by simpa using List.find?_some hr, ?_⟩
    unfold findAuthorId
    rw [hr]
    rfl
  · refine ⟨⟨st.nextAuthorId, name⟩, ?_, rfl, by rw [hid]⟩
    rw [hauth]
    exact List.mem_append_right _ (by simp)

/-! ### Claim C5: POST /api/books validation -/

/-- Claim C5 (amended): for request bodies whose title, author and
image_url fields parse to strings through (data.get(f) or "").strip()
(JSON strings, null, or absent — a truthy non-string value instead
crashes with an uncaught AttributeError before any validation), the
upsert answers 400 exactly when the trimmed title or trimmed author is
empty, or when Python int() fails on the publication_year value; a
numeric string or boolean year converts and is accepted, contrary to
the claim that every non-integer year is rejected.  A 400 leaves the
state unchanged. -/
theorem add_book_validation (app : AppState) (req : BookReq) (t a imgS : String)
    (ht : pyFieldStr req.title = .ok t)
    (ha : pyFieldStr req.author = .ok a)
    (hi : pyFieldStr req.image_url = .ok imgS) :
    ((∃ m, (add_book false app req).1 = .badReq m) ↔
        (t = "" ∨ a = "" ∨ pyIntOpt req.publication_year = none)) ∧
    ((∃ m, (add_book false app req).1 = .badReq m) → (add_book false app req).2 = app) := by
  by_cases hta : t = "" ∨ a = ""
  · have he : add_book false app req = (.badReq "title and author required", app) := by
      simp [add_book, ht, ha, hi, hta]
    refine ⟨⟨fun _ => ?_, fun _ => ⟨_, by rw [he]⟩⟩, fun _ => by rw [he]⟩
    rcases hta with h | h
    · exact Or.inl h
    · exact Or.inr (Or.inl h)
  · obtain hy | ⟨y, hy⟩ : pyIntOpt req.publication_year = none ∨
        ∃ y, pyIntOpt req.publication_year = some y := by
      cases pyIntOpt req.publication_year
      · exact Or.inl rfl
      · exact Or.inr ⟨_, rfl⟩
    · have he : add_book false app req
          = (.badReq "publication_year must be an integer", app) := by
        simp [add_book, ht, ha, hi, hta, hy]
      exact ⟨⟨fun _ => Or.inr (Or.inr hy), fun _ => ⟨_, by rw [he]⟩⟩, fun _ => by rw [he]⟩
    · have hnb : ∀ m, (add_book false app req).1 ≠ .badReq m := by
        intro m hm
        obtain hf | ⟨b, hf⟩ : findBookNocase (ensureAuthor app.cat a).books t = none ∨
            ∃ b, findBookNocase (ensureAuthor app.cat a).books t = some b := by
          cases findBookNocase (ensureAuthor app.cat a).books t
          · exact Or.inl rfl
          · exact Or.inr ⟨_, rfl⟩
        · simp [add_book, ht, ha, hi, hta, hy, hf] at hm
        · simp [add_book, ht, ha, hi, hta, hy, hf] at hm
      constructor
      · constructor
        · intro ⟨m, hm⟩
          exact absurd hm (hnb m)
        · intro hor
          rcases hor with h | h | h
          · exact absurd h (by tauto)
          · exact absurd h (by tauto)
          · rw [hy] at h
            cases h
      · intro ⟨m, hm⟩
        exact absurd hm (hnb m)

/-- Claim C5 empty app state. -/
def c5app : AppState := ⟨⟨[], [], [], 1, 1⟩, ⟨[], 0⟩⟩

/-- The C5 request whose publication_year is the string "1999". -/
def c5req : BookReq :=
  ⟨some (.str "Dune"), some (.str "Frank Herbert"), some (.str "1999"), none⟩

/-- Claim C5 counterexample: the year value is the JSON string "1999" —
not an integer — yet the request is accepted with 201 because int()
converts numeric strings; the claim required a 400. -/
theorem add_book_c5_counterexample :
    c5req.publication_year = some (.str "1999") ∧
    (add_book false c5app c5req).1
      = .ok 201 ⟨1, "Dune", some 1999, DEFAULT_COVER, some "Frank Herbert"⟩ := by
  constructor
  · rfl
  · decide

/-- Claim C5 witness: the amended validation theorem applied to an
empty-title request. -/
theorem add_book_validation_witness :
    ∃ m, (add_book false c5app ⟨some (.str "  "), some (.str "A"), some (.int 2000), none⟩).1
      = UpsertOut.badReq m :=
  (add_book_validation c5app ⟨some (.str "  "), some (.str "A"), some (.int 2000), none⟩
      "" "A" "" rfl rfl rfl).1.mpr (Or.inl rfl)

/-! ### Evaluation lemmas for add_book -/

lemma add_book_found (app : AppState) (req : BookReq) (t a imgS : String) (y : Int)
    (b : Book)
    (ht : pyFieldStr req.title = .ok t)
    (ha : pyFieldStr req.author = .ok a)
    (hi : pyFieldStr req.image_url = .ok imgS)
    (hta : ¬(t = "" ∨ a = ""))
    (hy : pyIntOpt req.publication_year = some y)
    (hfb : findBookNocase (ensureAuthor app.cat a).books t = some b) :
    add_book false app req =
      (.ok 200 ((bookRowById (ensureLink
          { ensureAuthor app.cat a with
            books := updateBooks (ensureAuthor app.cat a).books b.book_id (some y)
              (if imgS = "" then none else some imgS) }
          b.book_id (findAuthorId (ensureAuthor app.cat a) a)) b.book_id).getD
          ⟨0, "", none, "", none⟩),
       ⟨ensureLink
          { ensureAuthor app.cat a with
            books := updateBooks (ensureAuthor app.cat a).books b.book_id (some y)
              (if imgS = "" then none else some imgS) }
          b.book_id (findAuthorId (ensureAuthor app.cat a) a), app.rev⟩) := by
  simp [add_book, ht, ha, hi, hta, hy, hfb]

lemma add_book_new (app : AppState) (req : BookReq) (t a imgS : String) (y : Int)
    (ht : pyFieldStr req.title = .ok t)
    (ha : pyFieldStr req.author = .ok a)
    (hi : pyFieldStr req.image_url = .ok imgS)
    (hta : ¬(t = "" ∨ a = ""))
    (hy : pyIntOpt req.publication_year = some y)
    (hfb : findBookNocase (ensureAuthor app.cat a).books t = none) :
    add_book false app req =
      (.ok 201 ((bookRowById (ensureLink
          { ensureAuthor app.cat a with
            books := (ensureAuthor app.cat a).books
              ++ [⟨(ensureAuthor app.cat a).nextBookId, t, some y,
                   if imgS = "" then none else some imgS⟩]
            nextBookId := (ensureAuthor app.cat a).nextBookId + 1 }
          (ensureAuthor app.cat a).nextBookId
          (findAuthorId (ensureAuthor app.cat a) a))
          (ensureAuthor app.cat a).nextBookId).getD ⟨0, "", none, "", none⟩),
       ⟨ensureLink
          { ensureAuthor app.cat a with
            books := (ensureAuthor app.cat a).books
              ++ [⟨(ensureAuthor app.cat a).nextBookId, t, some y,
                   if imgS = "" then none else some imgS⟩]
            nextBookId := (ensureAuthor app.cat a).nextBookId + 1 }
          (ensureAuthor app.cat a).nextBookId
          (findAuthorId (ensureAuthor app.cat a) a), app.rev⟩) := by
  simp [add_book, ht, ha, hi, hta, hy, hfb]

/-! ### Claim C1: upsert semantics of POST /api/books -/

/-- Claim C1: on a valid body (trimmed title and author non-empty, year
int()-convertible), when the title matches an existing book
case-insensitively the handler answers 200, leaves every book id and
title unchanged, sets the matched book's publication_year to the (always
non-null) converted year and its image_url to the new value only when
one was supplied (COALESCE), ensures the book-author link for the
(possibly newly created) author — so a previously unlinked author grows
the link count by exactly one, while an already linked author leaves the
link table unchanged; when no title matches, a new Book row with the
request's fields is appended and linked and the handler answers 201.
The hypotheses CatalogWF are the constraints the store enforces. -/
theorem add_book_upsert (app : AppState) (req : BookReq) (t a imgS : String) (y : Int)
    (hwf : CatalogWF app.cat)
    (ht : pyFieldStr req.title = .ok t) (ht0 : t ≠ "")
    (ha : pyFieldStr req.author = .ok a) (ha0 : a ≠ "")
    (hi : pyFieldStr req.image_url = .ok imgS)
    (hy : pyIntOpt req.publication_year = some y) :
    (∀ b, findBookNocase app.cat.books t = some b →
       (∃ row, (add_book false app req).1 = .ok 200 row) ∧
       (add_book false app req).2.cat.books.map (fun x => (x.book_id, x.title))
         = app.cat.books.map (fun x => (x.book_id, x.title)) ∧
       (add_book false app req).2.cat.books.find? (fun x => x.book_id == b.book_id)
         = some { b with
             publication_year := some y
             image_url := coalesce (if imgS = "" then none else some imgS)
               b.image_url } ∧
       authorLinkedTo (add_book false app req).2.cat b.book_id a ∧
       (¬ authorLinkedTo app.cat b.book_id a →
          countLinks (add_book false app req).2.cat b.book_id
            = countLinks app.cat b.book_id + 1) ∧
       (authorLinkedTo app.cat b.book_id a →
          (add_book false app req).2.cat.links = app.cat.links)) ∧
    (findBookNocase app.cat.books t = none →
       (∃ row, (add_book false app req).1 = .ok 201 row) ∧
       ∃ nb, (add_book false app req).2.cat.books = app.cat.books ++ [nb] ∧
         nb.title = t ∧ nb.publication_year = some y ∧
         nb.image_url = (if imgS = "" then none else some imgS) ∧
         authorLinkedTo (add_book false app req).2.cat nb.book_id a) := by
  obtain ⟨hndBooks, hndNames, hbound, hlinkref⟩ := hwf
  have hta : ¬(t = "" ∨ a = "") := by
    push_neg
    exact ⟨ht0, ha0⟩
  have hb1 : (ensureAuthor app.cat a).books = app.cat.books := ensureAuthor_books _ _
  have hl1 : (ensureAuthor app.cat a).links = app.cat.links := ensureAuthor_links _ _
  obtain ⟨ar, harMem, harName, harId⟩ := ensureAuthor_found app.cat a
  constructor
  · intro b hfb
    have hfb1 : findBookNocase (ensureAuthor app.cat a).books t = some b := by
      rw [hb1]
      exact hfb
    have hbmem : b ∈ app.cat.books := by
      unfold findBookNocase at hfb
      exact List.mem_of_find?_eq_some hfb
    have he := add_book_found app req t a imgS y b ht ha hi hta hy hfb1
    have hbooks3 : (add_book false app req).2.cat.books
        = updateBooks app.cat.books b.book_id (some y)
            (if imgS = "" then none else some imgS) := by
      rw [he]
      show (ensureLink _ _ _).books = _
      rw [ensureLink_books]
      show updateBooks (ensureAuthor app.cat a).books _ _ _ = _
      rw [hb1]
    have hauth3 : (add_book false app req).2.cat.authors
        = (ensureAuthor app.cat a).authors := by
      rw [he]
      show (ensureLink _ _ _).authors = _
      rw [ensureLink_authors]
    refine ⟨⟨_, by rw [he]⟩, ?_, ?_, ?_, ?_, ?_⟩
    · rw [hbooks3]
      exact updateBooks_map_idTitle _ _ _ _
    · rw [hbooks3, find?_updateBooks hbmem hndBooks _ _]
      rfl
    · refine ⟨(b.book_id, findAuthorId (ensureAuthor app.cat a) a), ?_, rfl,
        ar, ?_, harId, harName⟩
      · rw [he]
        exact ensureLink_mem _ _ _
      · rw [hauth3]
        exact harMem
    · intro hnl
      have hnotmem : (b.book_id, findAuthorId (ensureAuthor app.cat a) a)
          ∉ app.cat.links := by
        intro hmem
        rcases ensureAuthor_cases app.cat a with ⟨hany, heq⟩ | ⟨hany, hauth, hid⟩
        · apply hnl
          refine ⟨(b.book_id, findAuthorId (ensureAuthor app.cat a) a), hmem, rfl,
            ar, ?_, harId, harName⟩
          rw [heq] at harMem
          exact harMem
        · obtain ⟨a0, ha0mem, ha0id⟩ := hlinkref _ hmem
          have hlt := hbound a0 ha0mem
          rw [ha0id, hid] at hlt
          exact absurd hlt (by omega)
      have hlinks3 : (add_book false app req).2.cat.links
          = app.cat.links ++ [(b.book_id, findAuthorId (ensureAuthor app.cat a) a)] := by
        rw [he]
        show (ensureLink _ _ _).links = _
        rw [ensureLink_of_not_mem]
        · show (ensureAuthor app.cat a).links ++ _ = _
          rw [hl1]
        · show (b.book_id, findAuthorId (ensureAuthor app.cat a) a)
            ∉ (ensureAuthor app.cat a).links
          rw [hl1]
          exact hnotmem
      unfold countLinks
      rw [hlinks3, List.filter_append]
      simp
    · intro hl
      obtain ⟨l, hlmem, hlfst, ar2, har2mem, har2id, har2name⟩ := hl
      have hmem : (b.book_id, findAuthorId (ensureAuthor app.cat a) a)
          ∈ app.cat.links := by
        rcases ensureAuthor_cases app.cat a with ⟨hany, heq⟩ | ⟨hany, hauth, hid⟩
        · have harMem0 : ar ∈ app.cat.authors := by
            rw [heq] at harMem
            exact harMem
          have har2ar : ar2 = ar :=
            List.inj_on_of_nodup_map hndNames har2mem harMem0
              (by rw [har2name, harName])
          have hsnd : l.2 = findAuthorId (ensureAuthor app.cat a) a := by
            rw [← har2id, har2ar, harId]
          have hlrw : l = (b.book_id, findAuthorId (ensureAuthor app.cat a) a) := by
            rcases l with ⟨l1, l2⟩
            have h1' : l1 = b.book_id := hlfst
            have h2' : l2 = findAuthorId (ensureAuthor app.cat a) a := hsnd
            rw [h1', h2']
          rw [← hlrw]
          exact hlmem
        · have hcontra : app.cat.authors.any (fun x => x.name == a) = true :=
            List.any_eq_true.mpr ⟨ar2, har2mem, by simpa using har2name⟩
          rw [hany] at hcontra
          cases hcontra
      rw [he]
      show (ensureLink _ _ _).links = _
      rw [ensureLink_of_mem]
      · show (ensureAuthor app.cat a).links = _
        rw [hl1]
      · show (b.book_id, findAuthorId (ensureAuthor app.cat a) a)
          ∈ (ensureAuthor app.cat a).links
        rw [hl1]
        exact hmem
  · intro hfb
    have hfb1 : findBookNocase (ensureAuthor app.cat a).books t = none := by
      rw [hb1]
      exact hfb
    have he := add_book_new app req t a imgS y ht ha hi hta hy hfb1
    refine ⟨⟨_, by rw [he]⟩,
      ⟨⟨(ensureAuthor app.cat a).nextBookId, t, some y,
        if imgS = "" then none else some imgS⟩, ?_, rfl, rfl, rfl, ?_⟩⟩
    · rw [he]
      show (ensureLink _ _ _).books = _
      rw [ensureLink_books]
      show (ensureAuthor app.cat a).books ++ _ = _
      rw [hb1]
    · refine ⟨((ensureAuthor app.cat a).nextBookId,
        findAuthorId (ensureAuthor app.cat a) a), ?_, rfl, ar, ?_, harId, harName⟩
      · rw [he]
        exact ensureLink_mem _ _ _
      · rw [he]
        show ar ∈ (ensureLink _ _ _).authors
        rw [ensureLink_authors]
        exact harMem

/-- Claim C1 app state: book Dune by Frank Herbert. -/
def c1app : AppState :=
  ⟨⟨[⟨1, "Dune", some 1965, none⟩], [⟨1, "Frank Herbert"⟩], [(1, 1)], 2, 2⟩, ⟨[], 0⟩⟩

/-- The C1 request: same title in different casing, different author. -/
def c1req : BookReq :=
  ⟨some (.str "dune"), some (.str "Other Name"), some (.int 1966), none⟩

/-- Claim C1 witness: upserting "dune" with a new author onto the
existing "Dune" answers 200 and grows the book's author-link count by
one. -/
theorem add_book_upsert_witness :
    (∃ row, (add_book false c1app c1req).1 = .ok 200 row) ∧
    countLinks (add_book false c1app c1req).2.cat 1 = countLinks c1app.cat 1 + 1 := by
  have h := add_book_upsert c1app c1req "dune" "Other Name" "" 1966
    (by decide) rfl (by decide) rfl (by decide) rfl rfl
  have h2 := h.1 ⟨1, "Dune", some 1965, none⟩ rfl
  exact ⟨h2.1, h2.2.2.2.2.1 (by decide)⟩

/-! ### Claim C9: uniqueness-violation race on the new-title insert -/

/-- Claim C9 app state: empty catalog. -/
def c9app : AppState := ⟨⟨[], [], [], 1, 1⟩, ⟨[], 0⟩⟩

/-- The C9 request: a fresh, valid title. -/
def c9req : BookReq := ⟨some (.str "Dune"), some (.str "A"), some (.int 1965), none⟩

/-- Claim C9 counterexample: on the very request that would insert a new
title (second conjunct: without a race it answers 201), a uniqueness
violation raised by the INSERT propagates as an uncaught exception —
there is no try/except and no retry in app.py, contradicting the claim
that the service catches the store error and retries once. -/
theorem add_book_c9_counterexample :
    add_book true c9app c9req = (.exn, c9app) ∧
    (add_book false c9app c9req).1
      = .ok 201 ⟨1, "Dune", some 1965, DEFAULT_COVER, some "A"⟩ := by
  constructor
  · decide
  · decide

/-- Claim C9 (amended): for every valid request whose title is not in
the catalog, if the Book INSERT raises the store's
uniqueness-violation error (a lost race on the NOCASE-unique title
index), add_book propagates the exception uncaught — the logging
decorator records and re-raises it, surfacing a 500 — with no retry of
the lookup-then-update path, no ConflictError, and no committed state
change (the per-request connection closes without commit). -/
theorem add_book_conflict_uncaught (app : AppState) (req : BookReq)
    (t a imgS : String) (y : Int)
    (ht : pyFieldStr req.title = .ok t) (ht0 : t ≠ "")
    (ha : pyFieldStr req.author = .ok a) (ha0 : a ≠ "")
    (hi : pyFieldStr req.image_url = .ok imgS)
    (hy : pyIntOpt req.publication_year = some y)
    (hfb : findBookNocase app.cat.books t = none) :
    add_book true app req = (.exn, app) := by
  have hta : ¬(t = "" ∨ a = "") := by
    push_neg
    exact ⟨ht0, ha0⟩
  have hfb1 : findBookNocase (ensureAuthor app.cat a).books t = none := by
    rw [ensureAuthor_books]
    exact hfb
  simp [add_book, ht, ha, hi, hta, hy, hfb1]

/-- Claim C9 witness: the amended theorem applied to the concrete
racing insert. -/
theorem add_book_conflict_uncaught_witness :
    add_book true c9app ⟨some (.str "Hyperion"), some (.str "B"), some (.int 1989), none⟩
      = (.exn, c9app) :=
  add_book_conflict_uncaught c9app
    ⟨some (.str "Hyperion"), some (.str "B"), some (.int 1989), none⟩
    "Hyperion" "B" "" 1989 rfl (by decide) rfl (by decide) rfl rfl rfl

end BookSite
